import Mathlib

/-!
Verification of the core allocator components of `sanitizer_common/sanitizer_allocator.h`:
the spline size-class map, the per-thread local cache, the large-mmap allocator and the
combined allocator facade.  C++ `uptr` values are modelled as `Nat`; wraparound is made
explicit with `% W` (`W = 2 ^ 64`) exactly where the source arithmetic can overflow.
-/

namespace SanitizerAllocator

/-- The machine-word modulus: `uptr` is a 64-bit unsigned integer. -/
def W : Nat := 2 ^ 64

/-- `IsPowerOfTwo x` from the source support header: `x` is a power of two. -/
def IsPowerOfTwo (n : Nat) : Prop := ∃ k, n = 2 ^ k

lemma IsPowerOfTwo.pos {s : Nat} (h : IsPowerOfTwo s) : 0 < s := by
  obtain ⟨k, rfl⟩ := h
  exact Nat.pos_pow_of_pos k (by decide)

/-! ## Spline size-class map

`SplineSizeClassMap<l0..l5, s0..s4, c0..c4>`: the template parameters become a structure,
and the static member functions become functions of that structure.  The C++ subtraction
`size - l0` is `uptr` (wraparound) subtraction; on the domain of the claims
(`size ≥ l0`, resp. `class_id` in range) it never underflows, so truncated `Nat`
subtraction agrees with the source arithmetic there. -/

structure SplineParams where
  l0 : Nat
  l1 : Nat
  l2 : Nat
  l3 : Nat
  l4 : Nat
  l5 : Nat
  s0 : Nat
  s1 : Nat
  s2 : Nat
  s3 : Nat
  s4 : Nat
  c0 : Nat
  c1 : Nat
  c2 : Nat
  c3 : Nat
  c4 : Nat
deriving DecidableEq

namespace SplineParams

/-- `u0 = 0 + (l1 - l0) / s0`. -/
def u0 (P : SplineParams) : Nat := 0 + (P.l1 - P.l0) / P.s0
/-- `u1 = u0 + (l2 - l1) / s1`. -/
def u1 (P : SplineParams) : Nat := P.u0 + (P.l2 - P.l1) / P.s1
/-- `u2 = u1 + (l3 - l2) / s2`. -/
def u2 (P : SplineParams) : Nat := P.u1 + (P.l3 - P.l2) / P.s2
/-- `u3 = u2 + (l4 - l3) / s3`. -/
def u3 (P : SplineParams) : Nat := P.u2 + (P.l4 - P.l3) / P.s3
/-- `u4 = u3 + (l5 - l4) / s4`. -/
def u4 (P : SplineParams) : Nat := P.u3 + (P.l5 - P.l4) / P.s4

/-- `kNumClasses = u4 + 1`. -/
def kNumClasses (P : SplineParams) : Nat := P.u4 + 1
/-- `kMaxSize = l5`. -/
def kMaxSize (P : SplineParams) : Nat := P.l5
/-- `kMinSize = l0`. -/
def kMinSize (P : SplineParams) : Nat := P.l0

/-- `SplineSizeClassMap::Size(class_id)`. -/
def Size (P : SplineParams) (class_id : Nat) : Nat :=
  if class_id ≤ P.u0 then P.l0 + P.s0 * (class_id - 0)
  else if class_id ≤ P.u1 then P.l1 + P.s1 * (class_id - P.u0)
  else if class_id ≤ P.u2 then P.l2 + P.s2 * (class_id - P.u1)
  else if class_id ≤ P.u3 then P.l3 + P.s3 * (class_id - P.u2)
  else if class_id ≤ P.u4 then P.l4 + P.s4 * (class_id - P.u3)
  else 0

/-- `SplineSizeClassMap::ClassID(size)`. -/
def ClassID (P : SplineParams) (size : Nat) : Nat :=
  if size ≤ P.l1 then 0 + (size - P.l0 + P.s0 - 1) / P.s0
  else if size ≤ P.l2 then P.u0 + (size - P.l1 + P.s1 - 1) / P.s1
  else if size ≤ P.l3 then P.u1 + (size - P.l2 + P.s2 - 1) / P.s2
  else if size ≤ P.l4 then P.u2 + (size - P.l3 + P.s3 - 1) / P.s3
  else if size ≤ P.l5 then P.u3 + (size - P.l4 + P.s4 - 1) / P.s4
  else 0

/-- `SplineSizeClassMap::MaxCached(class_id)`. -/
def MaxCached (P : SplineParams) (class_id : Nat) : Nat :=
  if class_id ≤ P.u0 then P.c0
  else if class_id ≤ P.u1 then P.c1
  else if class_id ≤ P.u2 then P.c2
  else if class_id ≤ P.u3 then P.c3
  else if class_id ≤ P.u4 then P.c4
  else 0

/-- The step of the spline segment containing a given class id, following the same
branch structure as `Size` (the spec phrase "step of the segment containing class c"). -/
def segmentStep (P : SplineParams) (class_id : Nat) : Nat :=
  if class_id ≤ P.u0 then P.s0
  else if class_id ≤ P.u1 then P.s1
  else if class_id ≤ P.u2 then P.s2
  else if class_id ≤ P.u3 then P.s3
  else if class_id ≤ P.u4 then P.s4
  else 0

/-- The parameter invariants of the two instantiations: strictly increasing boundary
sizes, power-of-two steps, and each segment length divisible by its step. -/
structure Inv (P : SplineParams) : Prop where
  h01 : P.l0 < P.l1
  h12 : P.l1 < P.l2
  h23 : P.l2 < P.l3
  h34 : P.l3 < P.l4
  h45 : P.l4 < P.l5
  hp0 : IsPowerOfTwo P.s0
  hp1 : IsPowerOfTwo P.s1
  hp2 : IsPowerOfTwo P.s2
  hp3 : IsPowerOfTwo P.s3
  hp4 : IsPowerOfTwo P.s4
  hd0 : P.s0 ∣ (P.l1 - P.l0)
  hd1 : P.s1 ∣ (P.l2 - P.l1)
  hd2 : P.s2 ∣ (P.l3 - P.l2)
  hd3 : P.s3 ∣ (P.l4 - P.l3)
  hd4 : P.s4 ∣ (P.l5 - P.l4)

end SplineParams

/-- `DefaultSizeClassMap`: `SplineSizeClassMap<1<<4 .. 1<<21, 1<<4 .. 1<<15, 256,64,16,4,1>`. -/
def DefaultSizeClassMap : SplineParams :=
  ⟨2 ^ 4, 2 ^ 9, 2 ^ 12, 2 ^ 15, 2 ^ 18, 2 ^ 21,
   2 ^ 4, 2 ^ 6, 2 ^ 9, 2 ^ 12, 2 ^ 15,
   256, 64, 16, 4, 1⟩

/-- `CompactSizeClassMap`: `SplineSizeClassMap<1<<3 .. 1<<15, 1<<3 .. 1<<12, 256,64,16,4,1>`. -/
def CompactSizeClassMap : SplineParams :=
  ⟨2 ^ 3, 2 ^ 4, 2 ^ 7, 2 ^ 8, 2 ^ 12, 2 ^ 15,
   2 ^ 3, 2 ^ 4, 2 ^ 7, 2 ^ 8, 2 ^ 12,
   256, 64, 16, 4, 1⟩

/-! ### Ceiling-division arithmetic for the spline -/

lemma ceil_div_ge (d : Nat) {s : Nat} (hs : 0 < s) : d ≤ s * ((d + s - 1) / s) := by
  have hdm := Nat.div_add_mod (d + s - 1) s
  have hlt := Nat.mod_lt (d + s - 1) hs
  omega

lemma ceil_div_lt (d : Nat) {s : Nat} (hs : 0 < s) : s * ((d + s - 1) / s) < d + s := by
  have h := Nat.div_mul_le_self (d + s - 1) s
  have h2 : s * ((d + s - 1) / s) = ((d + s - 1) / s) * s := Nat.mul_comm _ _
  omega

lemma ceil_div_exact {s : Nat} (m : Nat) (hs : 0 < s) : (s * m + s - 1) / s = m := by
  have h : s * m + s - 1 = s * m + (s - 1) := by omega
  rw [h, Nat.mul_add_div hs, Nat.div_eq_of_lt (by omega)]
  rfl

lemma ceil_div_le_of_le_of_dvd (d d' : Nat) {s : Nat} (hs : 0 < s) (hle : d ≤ d')
    (hdvd : s ∣ d') : (d + s - 1) / s ≤ d' / s := by
  obtain ⟨m, hm⟩ := hdvd
  have h1 : (d + s - 1) / s ≤ (s * m + s - 1) / s :=
    Nat.div_le_div_right (by omega)
  rw [ceil_div_exact m hs] at h1
  have h3 : d' / s = m := by
    rw [hm]
    exact Nat.mul_div_cancel_left m hs
  omega

lemma ceil_div_pos (d : Nat) {s : Nat} (hs : 0 < s) (hd : 0 < d) : 0 < (d + s - 1) / s :=
  Nat.div_pos (by omega) hs

/-- One-segment analysis for `ClassID`: with `l ≤ S ≤ l'`, the class offset
`q = ⌈(S - l)/s⌉` satisfies the spline round-trip bounds. -/
lemma seg_classify {l l' s : Nat} (u : Nat) (hs : 0 < s) (hdvd : s ∣ l' - l)
    (S : Nat) (hlS : l ≤ S) (hSl : S ≤ l') :
    S ≤ l + s * ((S - l + s - 1) / s) ∧
    l + s * ((S - l + s - 1) / s) - S < s ∧
    u + (S - l + s - 1) / s ≤ u + (l' - l) / s ∧
    (l < S → u < u + (S - l + s - 1) / s) := by
  refine ⟨?_, ?_, ?_, ?_⟩
  · have := ceil_div_ge (S - l) hs
    omega
  · have := ceil_div_lt (S - l) hs
    omega
  · have := ceil_div_le_of_le_of_dvd (S - l) (l' - l) hs (by omega) hdvd
    omega
  · intro h
    have := ceil_div_pos (S - l) hs (by omega)
    omega

/-- One-segment analysis for `Size`: with `u ≤ c ≤ u + (l' - l)/s`, the class size
`l + s·(c - u)` lies in `(l, l']` (in `[l, l']` when `c = u`) and `ClassID`'s
ceiling division recovers `c`. -/
lemma seg_roundtrip {l l' s : Nat} (u : Nat) (hs : 0 < s) (hdvd : s ∣ l' - l)
    (c : Nat) (hcl : u ≤ c) (hcu : c ≤ u + (l' - l) / s) (hll : l ≤ l') :
    l + s * (c - u) ≤ l' ∧ (u < c → l < l + s * (c - u)) ∧
    u + (l + s * (c - u) - l + s - 1) / s = c := by
  have hmul : s * ((l' - l) / s) = l' - l := Nat.mul_div_cancel' hdvd
  refine ⟨?_, ?_, ?_⟩
  · have : s * (c - u) ≤ s * ((l' - l) / s) := Nat.mul_le_mul_left s (by omega)
    omega
  · intro h
    have h1 : s * 1 ≤ s * (c - u) := Nat.mul_le_mul_left s (by omega)
    omega
  · have h2 : l + s * (c - u) - l + s - 1 = s * (c - u) + s - 1 := by omega
    rw [h2, ceil_div_exact (c - u) hs]
    omega

/-- C2: for the spline size-class map with the parameter invariants of the
instantiations, every request size `S` with `kMinSize ≤ S ≤ kMaxSize` satisfies
`S ≤ Size (ClassID S)` and `Size (ClassID S) - S < step of the segment containing
class ClassID S`. -/
theorem spline_size_of_classid_bounds (P : SplineParams) (hinv : P.Inv)
    (S : Nat) (hmin : P.kMinSize ≤ S) (hmax : S ≤ P.kMaxSize) :
    S ≤ P.Size (P.ClassID S) ∧
    P.Size (P.ClassID S) - S < P.segmentStep (P.ClassID S) := by
  obtain ⟨h01, h12, h23, h34, h45, hp0, hp1, hp2, hp3, hp4, hd0, hd1, hd2, hd3, hd4⟩ := hinv
  have hs0 := hp0.pos
  have hs1 := hp1.pos
  have hs2 := hp2.pos
  have hs3 := hp3.pos
  have hs4 := hp4.pos
  rw [SplineParams.kMinSize] at hmin
  rw [SplineParams.kMaxSize] at hmax
  have hu01 : P.u0 ≤ P.u1 := Nat.le_add_right _ _
  have hu12 : P.u1 ≤ P.u2 := Nat.le_add_right _ _
  have hu23 : P.u2 ≤ P.u3 := Nat.le_add_right _ _
  by_cases hb1 : S ≤ P.l1
  · have hcid : P.ClassID S = (S - P.l0 + P.s0 - 1) / P.s0 := by
      rw [SplineParams.ClassID, if_pos hb1, Nat.zero_add]
    obtain ⟨hA, hB, hC, -⟩ := seg_classify 0 hs0 hd0 S hmin hb1
    have hcu : P.ClassID S ≤ P.u0 := by rw [hcid, SplineParams.u0]; omega
    have hsize : P.Size (P.ClassID S) = P.l0 + P.s0 * (P.ClassID S - 0) := by
      rw [SplineParams.Size, if_pos hcu]
    have hstep : P.segmentStep (P.ClassID S) = P.s0 := by
      rw [SplineParams.segmentStep, if_pos hcu]
    rw [hsize, hstep, hcid, Nat.sub_zero]
    exact ⟨hA, hB⟩
  · have hl1S : P.l1 < S := not_le.mp hb1
    by_cases hb2 : S ≤ P.l2
    · have hcid : P.ClassID S = P.u0 + (S - P.l1 + P.s1 - 1) / P.s1 := by
        rw [SplineParams.ClassID, if_neg hb1, if_pos hb2]
      obtain ⟨hA, hB, hC, hD⟩ := seg_classify P.u0 hs1 hd1 S (le_of_lt hl1S) hb2
      have hgt : P.u0 < P.ClassID S := by rw [hcid]; exact hD hl1S
      have hcu : P.ClassID S ≤ P.u1 := by rw [hcid, SplineParams.u1]; exact hC
      have hn0 : ¬ (P.ClassID S ≤ P.u0) := by omega
      have hsize : P.Size (P.ClassID S) = P.l1 + P.s1 * (P.ClassID S - P.u0) := by
        rw [SplineParams.Size, if_neg hn0, if_pos hcu]
      have hstep : P.segmentStep (P.ClassID S) = P.s1 := by
        rw [SplineParams.segmentStep, if_neg hn0, if_pos hcu]
      rw [hsize, hstep, hcid, Nat.add_sub_cancel_left]
      exact ⟨hA, hB⟩
    · have hl2S : P.l2 < S := not_le.mp hb2
      by_cases hb3 : S ≤ P.l3
      · have hcid : P.ClassID S = P.u1 + (S - P.l2 + P.s2 - 1) / P.s2 := by
          rw [SplineParams.ClassID, if_neg hb1, if_neg hb2, if_pos hb3]
        obtain ⟨hA, hB, hC, hD⟩ := seg_classify P.u1 hs2 hd2 S (le_of_lt hl2S) hb3
        have hgt : P.u1 < P.ClassID S := by rw [hcid]; exact hD hl2S
        have hcu : P.ClassID S ≤ P.u2 := by rw [hcid, SplineParams.u2]; exact hC
        have hn0 : ¬ (P.ClassID S ≤ P.u0) := by omega
        have hn1 : ¬ (P.ClassID S ≤ P.u1) := by omega
        have hsize : P.Size (P.ClassID S) = P.l2 + P.s2 * (P.ClassID S - P.u1) := by
          rw [SplineParams.Size, if_neg hn0, if_neg hn1, if_pos hcu]
        have hstep : P.segmentStep (P.ClassID S) = P.s2 := by
          rw [SplineParams.segmentStep, if_neg hn0, if_neg hn1, if_pos hcu]
        rw [hsize, hstep, hcid, Nat.add_sub_cancel_left]
        exact ⟨hA, hB⟩
      · have hl3S : P.l3 < S := not_le.mp hb3
        by_cases hb4 : S ≤ P.l4
        · have hcid : P.ClassID S = P.u2 + (S - P.l3 + P.s3 - 1) / P.s3 := by
            rw [SplineParams.ClassID, if_neg hb1, if_neg hb2, if_neg hb3, if_pos hb4]
          obtain ⟨hA, hB, hC, hD⟩ := seg_classify P.u2 hs3 hd3 S (le_of_lt hl3S) hb4
          have hgt : P.u2 < P.ClassID S := by rw [hcid]; exact hD hl3S
          have hcu : P.ClassID S ≤ P.u3 := by rw [hcid, SplineParams.u3]; exact hC
          have hn0 : ¬ (P.ClassID S ≤ P.u0) := by omega
          have hn1 : ¬ (P.ClassID S ≤ P.u1) := by omega
          have hn2 : ¬ (P.ClassID S ≤ P.u2) := by omega
          have hsize : P.Size (P.ClassID S) = P.l3 + P.s3 * (P.ClassID S - P.u2) := by
            rw [SplineParams.Size, if_neg hn0, if_neg hn1, if_neg hn2, if_pos hcu]
          have hstep : P.segmentStep (P.ClassID S) = P.s3 := by
            rw [SplineParams.segmentStep, if_neg hn0, if_neg hn1, if_neg hn2, if_pos hcu]
          rw [hsize, hstep, hcid, Nat.add_sub_cancel_left]
          exact ⟨hA, hB⟩
        · have hl4S : P.l4 < S := not_le.mp hb4
          have hcid : P.ClassID S = P.u3 + (S - P.l4 + P.s4 - 1) / P.s4 := by
            rw [SplineParams.ClassID, if_neg hb1, if_neg hb2, if_neg hb3, if_neg hb4,
              if_pos hmax]
          obtain ⟨hA, hB, hC, hD⟩ := seg_classify P.u3 hs4 hd4 S (le_of_lt hl4S) hmax
          have hgt : P.u3 < P.ClassID S := by rw [hcid]; exact hD hl4S
          have hcu : P.ClassID S ≤ P.u4 := by rw [hcid, SplineParams.u4]; exact hC
          have hn0 : ¬ (P.ClassID S ≤ P.u0) := by omega
          have hn1 : ¬ (P.ClassID S ≤ P.u1) := by omega
          have hn2 : ¬ (P.ClassID S ≤ P.u2) := by omega
          have hn3 : ¬ (P.ClassID S ≤ P.u3) := by omega
          have hsize : P.Size (P.ClassID S) = P.l4 + P.s4 * (P.ClassID S - P.u3) := by
            rw [SplineParams.Size, if_neg hn0, if_neg hn1, if_neg hn2, if_neg hn3,
              if_pos hcu]
          have hstep : P.segmentStep (P.ClassID S) = P.s4 := by
            rw [SplineParams.segmentStep, if_neg hn0, if_neg hn1, if_neg hn2, if_neg hn3,
              if_pos hcu]
          rw [hsize, hstep, hcid, Nat.add_sub_cancel_left]
          exact ⟨hA, hB⟩

/-- Witness for C2: the compact map parameters satisfy the invariants, and the
bounds hold at the concrete request size `S = 100`. -/
theorem spline_size_of_classid_bounds_witness :
    100 ≤ CompactSizeClassMap.Size (CompactSizeClassMap.ClassID 100) ∧
    CompactSizeClassMap.Size (CompactSizeClassMap.ClassID 100) - 100 <
      CompactSizeClassMap.segmentStep (CompactSizeClassMap.ClassID 100) :=
  spline_size_of_classid_bounds CompactSizeClassMap
    ⟨by decide, by decide, by decide, by decide, by decide,
     ⟨3, rfl⟩, ⟨4, rfl⟩, ⟨7, rfl⟩, ⟨8, rfl⟩, ⟨12, rfl⟩,
     ⟨1, rfl⟩, ⟨7, rfl⟩, ⟨1, rfl⟩, ⟨15, rfl⟩, ⟨7, rfl⟩⟩
    100 (by decide) (by decide)

/-- C3: for the spline size-class map with the parameter invariants of the
instantiations, every class id `c < kNumClasses` satisfies `ClassID (Size c) = c`. -/
theorem spline_classid_size_roundtrip (P : SplineParams) (hinv : P.Inv)
    (c : Nat) (hc : c < P.kNumClasses) : P.ClassID (P.Size c) = c := by
  obtain ⟨h01, h12, h23, h34, h45, hp0, hp1, hp2, hp3, hp4, hd0, hd1, hd2, hd3, hd4⟩ := hinv
  have hs0 := hp0.pos
  have hs1 := hp1.pos
  have hs2 := hp2.pos
  have hs3 := hp3.pos
  have hs4 := hp4.pos
  have hcu4 : c ≤ P.u4 := by rw [SplineParams.kNumClasses] at hc; omega
  by_cases h0 : c ≤ P.u0
  · have hsize : P.Size c = P.l0 + P.s0 * (c - 0) := by
      rw [SplineParams.Size, if_pos h0]
    obtain ⟨hA, -, hC⟩ :=
      seg_roundtrip 0 hs0 hd0 c (Nat.zero_le c) h0 (le_of_lt h01)
    have hb1 : P.Size c ≤ P.l1 := by rw [hsize]; exact hA
    rw [SplineParams.ClassID, if_pos hb1, hsize]
    exact hC
  · have hgt : P.u0 < c := not_le.mp h0
    by_cases h1 : c ≤ P.u1
    · have hsize : P.Size c = P.l1 + P.s1 * (c - P.u0) := by
        rw [SplineParams.Size, if_neg h0, if_pos h1]
      obtain ⟨hA, hB, hC⟩ :=
        seg_roundtrip P.u0 hs1 hd1 c (le_of_lt hgt) h1 (le_of_lt h12)
      have hlS : P.l1 < P.Size c := by rw [hsize]; exact hB hgt
      have hn1 : ¬ (P.Size c ≤ P.l1) := by omega
      have hb2 : P.Size c ≤ P.l2 := by rw [hsize]; exact hA
      rw [SplineParams.ClassID, if_neg hn1, if_pos hb2, hsize]
      exact hC
    · have hgt1 : P.u1 < c := not_le.mp h1
      by_cases h2 : c ≤ P.u2
      · have hsize : P.Size c = P.l2 + P.s2 * (c - P.u1) := by
          rw [SplineParams.Size, if_neg h0, if_neg h1, if_pos h2]
        obtain ⟨hA, hB, hC⟩ :=
          seg_roundtrip P.u1 hs2 hd2 c (le_of_lt hgt1) h2 (le_of_lt h23)
        have hlS : P.l2 < P.Size c := by rw [hsize]; exact hB hgt1
        have hn1 : ¬ (P.Size c ≤ P.l1) := by omega
        have hn2 : ¬ (P.Size c ≤ P.l2) := by omega
        have hb3 : P.Size c ≤ P.l3 := by rw [hsize]; exact hA
        rw [SplineParams.ClassID, if_neg hn1, if_neg hn2, if_pos hb3, hsize]
        exact hC
      · have hgt2 : P.u2 < c := not_le.mp h2
        by_cases h3 : c ≤ P.u3
        · have hsize : P.Size c = P.l3 + P.s3 * (c - P.u2) := by
            rw [SplineParams.Size, if_neg h0, if_neg h1, if_neg h2, if_pos h3]
          obtain ⟨hA, hB, hC⟩ :=
            seg_roundtrip P.u2 hs3 hd3 c (le_of_lt hgt2) h3 (le_of_lt h34)
          have hlS : P.l3 < P.Size c := by rw [hsize]; exact hB hgt2
          have hn1 : ¬ (P.Size c ≤ P.l1) := by omega
          have hn2 : ¬ (P.Size c ≤ P.l2) := by omega
          have hn3 : ¬ (P.Size c ≤ P.l3) := by omega
          have hb4 : P.Size c ≤ P.l4 := by rw [hsize]; exact hA
          rw [SplineParams.ClassID, if_neg hn1, if_neg hn2, if_neg hn3, if_pos hb4, hsize]
          exact hC
        · have hgt3 : P.u3 < c := not_le.mp h3
          have hsize : P.Size c = P.l4 + P.s4 * (c - P.u3) := by
            rw [SplineParams.Size, if_neg h0, if_neg h1, if_neg h2, if_neg h3, if_pos hcu4]
          obtain ⟨hA, hB, hC⟩ :=
            seg_roundtrip P.u3 hs4 hd4 c (le_of_lt hgt3) hcu4 (le_of_lt h45)
          have hlS : P.l4 < P.Size c := by rw [hsize]; exact hB hgt3
          have hn1 : ¬ (P.Size c ≤ P.l1) := by omega
          have hn2 : ¬ (P.Size c ≤ P.l2) := by omega
          have hn3 : ¬ (P.Size c ≤ P.l3) := by omega
          have hn4 : ¬ (P.Size c ≤ P.l4) := by omega
          have hb5 : P.Size c ≤ P.l5 := by rw [hsize]; exact hA
          rw [SplineParams.ClassID, if_neg hn1, if_neg hn2, if_neg hn3, if_neg hn4,
            if_pos hb5, hsize]
          exact hC

/-- Witness for C3: the compact map parameters satisfy the invariants, and the
round-trip holds at the concrete class id `c = 20` (`kNumClasses = 32`). -/
theorem spline_classid_size_roundtrip_witness :
    CompactSizeClassMap.ClassID (CompactSizeClassMap.Size 20) = 20 :=
  spline_classid_size_roundtrip CompactSizeClassMap
    ⟨by decide, by decide, by decide, by decide, by decide,
     ⟨3, rfl⟩, ⟨4, rfl⟩, ⟨7, rfl⟩, ⟨8, rfl⟩, ⟨12, rfl⟩,
     ⟨1, rfl⟩, ⟨7, rfl⟩, ⟨1, rfl⟩, ⟨15, rfl⟩, ⟨7, rfl⟩⟩
    20 (by decide)

/-! ## Per-thread local cache (`SizeClassAllocatorLocalCache`)

A per-class free list is the list of freed chunk pointers, front first
(`IntrusiveList<AllocatorListNode>`; `push_front`/`pop_front`/`front` act on the list
head).  The cache state maps a class id to its list; the zero-initialized state has
every list empty.  The primary backend (`SizeClassAllocator64`) lives outside this
header; its bulk operations appear as explicit data: the refill a `BulkAllocate`
would deliver is a parameter, and the batch handed to `BulkDeallocate` is returned. -/

def CacheState : Type := Nat → List Nat

/-- The all-lists-empty (zero-initialized) cache state. -/
def cacheInit : CacheState := fun _ => []

/-- Write the free list of class `c`. -/
def updateList (st : CacheState) (c : Nat) (l : List Nat) : CacheState :=
  fun i => if i = c then l else st i

lemma updateList_same (st : CacheState) (c : Nat) (l : List Nat) :
    updateList st c l c = l := by simp [updateList]

lemma updateList_other (st : CacheState) (c : Nat) (l : List Nat) {c2 : Nat}
    (h : c2 ≠ c) : updateList st c l c2 = st c2 := by simp [updateList, h]

/-- `SizeClassAllocatorLocalCache::Allocate`.  Modelled from the spec: the primary's
`BulkAllocate(c, out_list)` (code outside this header) appends some number of free
chunks of class `c` to the empty list, leaving it non-empty; the appended batch is the
`refill` parameter.  Returns the new cache state and the popped front chunk. -/
def cacheAllocate (st : CacheState) (c : Nat) (refill : List Nat) :
    CacheState × Option Nat :=
  let l := if st c = [] then refill else st c
  (updateList st c l.tail, l.head?)

/-- `SizeClassAllocatorLocalCache::DrainHalf`: pops `size / 2` nodes from the front of
`free_lists[class_id]`, pushing each onto the front of a scratch list `half`, and hands
`half` to the primary's `BulkDeallocate`.  Returns the new cache state and the
transferred batch in the order `half` ends up in (the reversed front half). -/
def cacheDrainHalf (st : CacheState) (c : Nat) : CacheState × List Nat :=
  let count := (st c).length / 2
  (updateList st c ((st c).drop count), ((st c).take count).reverse)

/-- `SizeClassAllocatorLocalCache::Deallocate`: push `p` on the front of
`free_lists[class_id]`; if the list length reaches `2 * MaxCached(class_id)`, drain
half of it to the primary.  Returns the new cache state and the batch handed to
`BulkDeallocate` (empty when no drain happened). -/
def cacheDeallocate (maxCached : Nat → Nat) (st : CacheState) (c : Nat) (p : Nat) :
    CacheState × List Nat :=
  let st1 := updateList st c (p :: st c)
  if 2 * maxCached c ≤ (st1 c).length then cacheDrainHalf st1 c
  else (st1, [])

/-- `SizeClassAllocatorLocalCache::Drain`: every class list is handed entirely to the
primary's `BulkDeallocate`; afterwards every list is empty (the source loops over all
`kNumClasses` classes, and all class ids in use are below `kNumClasses`). -/
def cacheDrain (_st : CacheState) : CacheState := fun _ => []

/-- A completed public operation on the local cache.  `alloc` carries the refill that
the primary's `BulkAllocate` supplies when the list is empty. -/
inductive CacheOp where
  | alloc (c : Nat) (refill : List Nat)
  | dealloc (c : Nat) (p : Nat)
  | drain
deriving DecidableEq

/-- One public operation on the cache state. -/
def cacheStep (maxCached : Nat → Nat) (st : CacheState) : CacheOp → CacheState
  | CacheOp.alloc c refill => (cacheAllocate st c refill).1
  | CacheOp.dealloc c p => (cacheDeallocate maxCached st c p).1
  | CacheOp.drain => cacheDrain st

/-- Run a trace of public operations from the zero-initialized state. -/
def cacheRun (maxCached : Nat → Nat) (ops : List CacheOp) : CacheState :=
  ops.foldl (cacheStep maxCached) cacheInit

/-- The primary-backend contract for one operation.  Modelled from the spec: a
`BulkAllocate` refill is non-empty (§4.5); a bulk transfer is at most one cache's
worth of chunks, `MaxCached c` (the batch size of the size-classed backend's bulk
transfer). -/
def opOk (maxCached : Nat → Nat) : CacheOp → Prop
  | CacheOp.alloc c refill => refill ≠ [] ∧ refill.length ≤ maxCached c
  | CacheOp.dealloc _ _ => True
  | CacheOp.drain => True

instance (maxCached : Nat → Nat) : DecidablePred (opOk maxCached) := fun op =>
  match op with
  | CacheOp.alloc c refill =>
      inferInstanceAs (Decidable (refill ≠ [] ∧ refill.length ≤ maxCached c))
  | CacheOp.dealloc _ _ => inferInstanceAs (Decidable True)
  | CacheOp.drain => inferInstanceAs (Decidable True)

/-- The free-list length bound maintained between public operations. -/
def CacheInv (maxCached : Nat → Nat) (st : CacheState) : Prop :=
  ∀ c, (st c).length < 2 * maxCached c

lemma cacheAllocate_fst (st : CacheState) (c : Nat) (refill : List Nat) (c2 : Nat) :
    (cacheAllocate st c refill).1 c2 =
      if c2 = c then (if st c = [] then refill else st c).tail else st c2 := by
  by_cases hc : c2 = c
  · subst hc
    simp [cacheAllocate, updateList_same]
  · simp [cacheAllocate, updateList_other st c _ hc, hc]

lemma cacheDeallocate_fst (maxCached : Nat → Nat) (st : CacheState) (c p c2 : Nat) :
    (cacheDeallocate maxCached st c p).1 c2 =
      if c2 = c then
        (if 2 * maxCached c ≤ (p :: st c).length
         then (p :: st c).drop ((p :: st c).length / 2)
         else p :: st c)
      else st c2 := by
  simp only [cacheDeallocate, cacheDrainHalf, updateList_same]
  by_cases hc : c2 = c
  · subst hc
    split
    · simp [updateList_same]
    · simp [updateList_same]
  · split
    · simp [updateList_other _ _ _ hc, hc]
    · simp [updateList_other _ _ _ hc, hc]

lemma cacheDeallocate_snd (maxCached : Nat → Nat) (st : CacheState) (c p : Nat) :
    (cacheDeallocate maxCached st c p).2 =
      if 2 * maxCached c ≤ (p :: st c).length
      then ((p :: st c).take ((p :: st c).length / 2)).reverse
      else [] := by
  simp only [cacheDeallocate, cacheDrainHalf, updateList_same]
  split
  · rfl
  · rfl

/-- One public operation preserves the free-list length bound. -/
lemma cacheStep_inv (maxCached : Nat → Nat) (hM : ∀ c, 1 ≤ maxCached c)
    (st : CacheState) (op : CacheOp) (hop : opOk maxCached op)
    (hinv : CacheInv maxCached st) : CacheInv maxCached (cacheStep maxCached st op) := by
  cases op with
  | alloc c refill =>
      obtain ⟨hne, hlen⟩ := hop
      intro c2
      rw [cacheStep, cacheAllocate_fst]
      by_cases hc : c2 = c
      · subst hc
        rw [if_pos rfl]
        by_cases hemp : st c2 = []
        · rw [if_pos hemp]
          have h1 := hM c2
          have htail := List.length_tail refill
          omega
        · rw [if_neg hemp]
          have hi := hinv c2
          have htail := List.length_tail (st c2)
          omega
      · rw [if_neg hc]
        exact hinv c2
  | dealloc c p =>
      intro c2
      rw [cacheStep, cacheDeallocate_fst]
      by_cases hc : c2 = c
      · subst hc
        rw [if_pos rfl]
        have hi := hinv c2
        have hlen := List.length_cons p (st c2)
        split
        · rw [List.length_drop]
          omega
        · omega
      · rw [if_neg hc]
        exact hinv c2
  | drain =>
      intro c2
      have h1 := hM c2
      simp only [cacheStep, cacheDrain, List.length_nil]
      omega

lemma cacheRun_inv_aux (maxCached : Nat → Nat) (hM : ∀ c, 1 ≤ maxCached c)
    (ops : List CacheOp) (st : CacheState) (hst : CacheInv maxCached st)
    (hops : ∀ op ∈ ops, opOk maxCached op) :
    CacheInv maxCached (ops.foldl (cacheStep maxCached) st) := by
  induction ops generalizing st with
  | nil => exact hst
  | cons op rest ih =>
      rw [List.foldl_cons]
      exact ih (cacheStep maxCached st op)
        (cacheStep_inv maxCached hM st op (hops op (List.mem_cons_self op rest)) hst)
        (fun o ho => hops o (List.mem_cons_of_mem op ho))

/-- C4: from the zero-initialized cache, after every trace of completed public
operations (with the primary's refills satisfying its contract) each free list's
length is strictly below `2 * MaxCached c`; and when a `Deallocate` makes the list
length reach exactly `2 * MaxCached c`, the front half of the list (`size / 2` nodes,
by count) is what is transferred to the primary via `BulkDeallocate`. -/
theorem cache_len_lt_twice_maxCached (maxCached : Nat → Nat)
    (hM : ∀ c, 1 ≤ maxCached c) :
    (∀ ops : List CacheOp, (∀ op ∈ ops, opOk maxCached op) →
      ∀ c, ((cacheRun maxCached ops) c).length < 2 * maxCached c) ∧
    (∀ (st : CacheState) (c p : Nat), (p :: st c).length = 2 * maxCached c →
      ((cacheDeallocate maxCached st c p).2).length = maxCached c ∧
      ((cacheDeallocate maxCached st c p).2).reverse ++
          ((cacheDeallocate maxCached st c p).1 c) = p :: st c) := by
  constructor
  · intro ops hops c
    exact cacheRun_inv_aux maxCached hM ops cacheInit
      (fun c2 => by have := hM c2; simp only [cacheInit, List.length_nil]; omega)
      hops c
  · intro st c p hfull
    have hcond : 2 * maxCached c ≤ (p :: st c).length := le_of_eq hfull.symm
    have hhalf : (p :: st c).length / 2 = maxCached c := by omega
    rw [cacheDeallocate_snd, cacheDeallocate_fst, if_pos hcond, if_pos rfl, if_pos hcond,
      hhalf]
    constructor
    · rw [List.length_reverse, List.length_take]
      omega
    · rw [List.reverse_reverse, List.take_append_drop]

/-- Witness for C4: a concrete trace (`MaxCached ≡ 1`) and a concrete threshold
deallocation, with both conclusions instantiated. -/
theorem cache_len_lt_twice_maxCached_witness :
    (((cacheRun (fun _ => 1) [CacheOp.dealloc 0 5, CacheOp.alloc 0 [7],
        CacheOp.dealloc 0 3]) 0).length < 2 * 1) ∧
    ((cacheDeallocate (fun _ => 1) (updateList cacheInit 0 [9]) 0 8).2.length = 1 ∧
      ((cacheDeallocate (fun _ => 1) (updateList cacheInit 0 [9]) 0 8).2).reverse ++
        ((cacheDeallocate (fun _ => 1) (updateList cacheInit 0 [9]) 0 8).1 0) =
          8 :: (updateList cacheInit 0 [9]) 0) := by
  have h := cache_len_lt_twice_maxCached (fun _ => 1) (fun _ => le_refl 1)
  exact ⟨h.1 [CacheOp.dealloc 0 5, CacheOp.alloc 0 [7], CacheOp.dealloc 0 3]
      (by decide) 0,
    h.2 (updateList cacheInit 0 [9]) 0 8 (by decide)⟩

/-! ## Large-mmap allocator (`LargeMmapAllocator`)

Addresses are modelled as `Nat`.  A mapping's header lives in memory at
`user - page_size`; the model carries that address explicitly in the `Header`
record (`addr`), since the C++ header's location is implicit in where it is
written.  `uptr` arithmetic that can overflow is taken mod `W`. -/

/-- Modelled from the spec (support header not in this tree): `RoundUpTo(size,
boundary)` rounds up to the next multiple of the power-of-two `boundary`, in
mod-2^64 `uptr` arithmetic (the source masks the low bits of `size + boundary - 1`,
which for a power-of-two boundary is this quotient-times-boundary). -/
def roundUpTo (size boundary : Nat) : Nat :=
  ((size + boundary - 1) % W) / boundary * boundary

/-- The mathematical (overflow-free) round-up to a multiple of `boundary`. -/
def roundUpNat (size boundary : Nat) : Nat :=
  (size + boundary - 1) / boundary * boundary

lemma roundUpTo_eq_roundUpNat {size p : Nat} (h : size + p - 1 < W) :
    roundUpTo size p = roundUpNat size p := by
  rw [roundUpTo, roundUpNat, Nat.mod_eq_of_lt h]

lemma roundUpNat_ge {size p : Nat} (hp : 0 < p) : size ≤ roundUpNat size p := by
  rw [roundUpNat]
  have h := ceil_div_ge size hp
  have hc : p * ((size + p - 1) / p) = ((size + p - 1) / p) * p := Nat.mul_comm _ _
  omega

lemma roundUpNat_le_self {size p : Nat} : roundUpNat size p ≤ size + p - 1 :=
  Nat.div_mul_le_self _ _

lemma roundUpNat_mod {x p : Nat} : roundUpNat x p % p = 0 := by
  rw [roundUpNat]
  exact Nat.mul_mod_left _ _

/-- The per-mapping header `{map_beg, map_size, size, next, prev}`; the list links
are represented by membership in the live list, and `addr` records where the header
lives (`user - page_size`). -/
structure Header where
  addr : Nat
  map_beg : Nat
  map_size : Nat
  size : Nat
deriving DecidableEq

/-- `LargeMmapAllocator` state: cached page size and the live list, head (`list_`)
first.  `next_map` is modelled OS state: the lowest address available for a fresh
mapping. -/
structure LargeState where
  page_size : Nat
  list : List Header
  next_map : Nat
deriving DecidableEq

/-- `LargeMmapAllocator::RoundUpMapSize(size)`:
`RoundUpTo(size, page_size_) + page_size_` in `uptr` arithmetic. -/
def largeRoundUpMapSize (st : LargeState) (size : Nat) : Nat :=
  (roundUpTo size st.page_size + st.page_size) % W

/-- `LargeMmapAllocator::GetHeader(p)` reads the header at address `p - page_size_`;
the model looks that address up on the live list. -/
def largeGetHeader (st : LargeState) (p : Nat) : Option Header :=
  st.list.find? (fun h => h.addr == p - st.page_size)

/-- `LargeMmapAllocator::Allocate(size, alignment)`.  The map-size computation, the
overflow check, the user-pointer alignment and the list splice follow the source.
Modelled from the spec: `MmapOrDie` returns a fresh page-aligned anonymous region of
the requested length (it aborts rather than returning null) — here the next
page-aligned address at or after `next_map`. -/
def largeAllocate (st : LargeState) (size alignment : Nat) :
    Option Nat × LargeState :=
  let map_size0 := largeRoundUpMapSize st size
  let map_size := if st.page_size < alignment then (map_size0 + alignment) % W
                  else map_size0
  if map_size < size then (none, st)  -- Overflow.
  else
    let map_beg := roundUpNat st.next_map st.page_size
    let res0 := map_beg + st.page_size
    let res := if res0 % alignment = 0 then res0
               else res0 + (alignment - res0 % alignment)
    let h : Header := ⟨res - st.page_size, map_beg, map_size, size⟩
    (some res, { st with list := h :: st.list, next_map := map_beg + map_size })

/-- `LargeMmapAllocator::Deallocate(p)`: unlink the header at address
`p - page_size_` from the live list and unmap its region (unmapping returns memory
to the OS and does not otherwise change allocator state). -/
def largeDeallocate (st : LargeState) (p : Nat) : LargeState :=
  { st with list := st.list.filter (fun h => h.addr != p - st.page_size) }

/-- `LargeMmapAllocator::TotalMemoryUsed()`: `res += RoundUpMapSize(l->size)` over
the live list, in `uptr` arithmetic. -/
def largeTotalMemoryUsed (st : LargeState) : Nat :=
  st.list.foldl (fun res h => (res + largeRoundUpMapSize st h.size) % W) 0

/-- `LargeMmapAllocator::GetActuallyAllocatedSize(p)`:
`RoundUpMapSize(GetHeader(p)->size) - page_size_` (never underflows, since
`RoundUpMapSize` is at least one page).  Reading the header of a pointer that was
never returned by this allocator is undefined behaviour in the source; modelled as 0. -/
def largeGetActuallyAllocatedSize (st : LargeState) (p : Nat) : Nat :=
  match largeGetHeader st p with
  | some h => largeRoundUpMapSize st h.size - st.page_size
  | none => 0

/-- The spec's words for C1: "sum of `RoundUp(user_size, page_size)` across all
live headers" — stated for comparison with the source-derived
`largeTotalMemoryUsed`. -/
def specTotalMemoryUsed (st : LargeState) : Nat :=
  (st.list.map (fun h => roundUpNat h.size st.page_size)).sum

lemma W_pos : 0 < W := Nat.pos_pow_of_pos 64 (by decide)

lemma largeTMU_aux (st : LargeState) (l : List Header) (a : Nat)
    (hsz : ∀ h ∈ l, h.size + st.page_size ≤ W) :
    l.foldl (fun res h => (res + largeRoundUpMapSize st h.size) % W) (a % W) =
      (a + (l.map (fun h => roundUpNat h.size st.page_size + st.page_size)).sum) % W := by
  induction l generalizing a with
  | nil => simp
  | cons h t ih =>
      rw [List.foldl_cons, List.map_cons, List.sum_cons]
      have hmem := hsz h (List.mem_cons_self h t)
      have hW := W_pos
      have h1 : largeRoundUpMapSize st h.size =
          (roundUpNat h.size st.page_size + st.page_size) % W := by
        rw [largeRoundUpMapSize, roundUpTo_eq_roundUpNat (by omega)]
      rw [h1, Nat.add_mod_mod, Nat.mod_add_mod,
        ih (a + (roundUpNat h.size st.page_size + st.page_size))
          (fun x hx => hsz x (List.mem_cons_of_mem h hx)),
        Nat.add_assoc]

/-- C1 is false on the code: after a single live allocation of user size 1 with page
size 4096, `TotalMemoryUsed()` returns 8192 — the rounded user size plus the header
page — while the claimed sum of rounded user sizes alone is 4096. -/
theorem large_total_memory_used_cex :
    largeTotalMemoryUsed (largeAllocate ⟨4096, [], 0⟩ 1 1).2 ≠
      specTotalMemoryUsed (largeAllocate ⟨4096, [], 0⟩ 1 1).2 := by decide

/-- C1 amended: `TotalMemoryUsed()` returns the sum (mod 2^64) of
`RoundUp(user_size, page_size) + page_size` over all live headers — each live
mapping contributes its page-rounded user size plus one header page
(`RoundUpMapSize(user_size)`). -/
theorem large_total_memory_used_eq (st : LargeState)
    (hsz : ∀ h ∈ st.list, h.size + st.page_size ≤ W) :
    largeTotalMemoryUsed st =
      (st.list.map (fun h => roundUpNat h.size st.page_size + st.page_size)).sum % W := by
  have h := largeTMU_aux st st.list 0 hsz
  rw [Nat.zero_mod] at h
  rw [largeTotalMemoryUsed, h, Nat.zero_add]

/-- Witness for the amended C1 at a concrete one-mapping state. -/
theorem large_total_memory_used_eq_witness :
    largeTotalMemoryUsed ⟨4096, [⟨0, 0, 8192, 1⟩], 8192⟩ =
      (([⟨0, 0, 8192, 1⟩] : List Header).map
        (fun h => roundUpNat h.size 4096 + 4096)).sum % W :=
  large_total_memory_used_eq ⟨4096, [⟨0, 0, 8192, 1⟩], 8192⟩ (by decide)

lemma mod_W_eq_sub {a : Nat} (h1 : W ≤ a) (h2 : a < 2 * W) : a % W = a - W := by
  rw [Nat.mod_eq_sub_mod h1, Nat.mod_eq_of_lt (by omega)]

/-- When the mathematical map size `RoundUp(size, page) + page + alignment-slack`
reaches `2^64`, the machine (`uptr`) map size wraps to a value below `size`. -/
lemma machine_map_size_lt {size p A : Nat} (hsizeW : size < W) (hp1 : 0 < p)
    (hp2 : p ≤ 2 ^ 16) (hA : A ≤ 2 ^ 63)
    (hover : W ≤ roundUpNat size p + p + A) :
    ((roundUpTo size p + p) % W + A) % W < size := by
  have hWeq : W = 18446744073709551616 := by decide
  have h16 : (2 : Nat) ^ 16 = 65536 := by decide
  have h63 : (2 : Nat) ^ 63 = 9223372036854775808 := by decide
  have hR1 : size ≤ roundUpNat size p := roundUpNat_ge hp1
  have hR2 : roundUpNat size p ≤ size + p - 1 := roundUpNat_le_self
  by_cases hcase : size + p - 1 < W
  · rw [roundUpTo_eq_roundUpNat hcase]
    by_cases hm0 : roundUpNat size p + p < W
    · rw [Nat.mod_eq_of_lt hm0]
      have hge : W ≤ roundUpNat size p + p + A := hover
      have hlt2 : roundUpNat size p + p + A < 2 * W := by omega
      rw [mod_W_eq_sub hge hlt2]
      omega
    · have hge : W ≤ roundUpNat size p + p := by omega
      have hlt2 : roundUpNat size p + p < 2 * W := by omega
      rw [mod_W_eq_sub hge hlt2]
      have houter : roundUpNat size p + p - W + A < W := by omega
      rw [Nat.mod_eq_of_lt houter]
      omega
  · have hsp2 : size + p - 1 < 2 * W := by omega
    have hmod : (size + p - 1) % W = size + p - 1 - W := mod_W_eq_sub (by omega) hsp2
    have hrle : roundUpTo size p ≤ size + p - 1 - W := by
      rw [roundUpTo, hmod]
      exact Nat.div_mul_le_self _ _
    have hrtp : roundUpTo size p + p < W := by omega
    rw [Nat.mod_eq_of_lt hrtp]
    have houter : roundUpTo size p + p + A < W := by omega
    rw [Nat.mod_eq_of_lt houter]
    omega

/-- C6: when the map-size computation `RoundUp(size, page_size) + page_size`
(plus `alignment` when `alignment > page_size`) overflows the machine word,
`Allocate` returns null and leaves the allocator state — the live list included —
unchanged (no mapping is created). -/
theorem large_allocate_overflow_null (st : LargeState) (size alignment : Nat)
    (hsize : size < W) (halign : IsPowerOfTwo alignment) (halignW : alignment < W)
    (hpage : IsPowerOfTwo st.page_size) (hpageW : st.page_size ≤ 2 ^ 16)
    (hover : W ≤ roundUpNat size st.page_size + st.page_size +
      (if st.page_size < alignment then alignment else 0)) :
    largeAllocate st size alignment = (none, st) := by
  have hp1 : 0 < st.page_size := hpage.pos
  have hA63 : alignment ≤ 2 ^ 63 := by
    obtain ⟨k, hk⟩ := halign
    subst hk
    by_contra hgt
    push_neg at hgt
    have hk64 : 64 ≤ k := by
      by_contra hk'
      push_neg at hk'
      have hle : (2 : Nat) ^ k ≤ 2 ^ 63 :=
        Nat.pow_le_pow_right (by decide) (by omega)
      omega
    have hWle : W ≤ 2 ^ k := Nat.pow_le_pow_right (by decide) hk64
    omega
  simp only [largeAllocate, largeRoundUpMapSize]
  by_cases hpa : st.page_size < alignment
  · rw [if_pos hpa] at hover ⊢
    have hlt := machine_map_size_lt hsize hp1 hpageW hA63 hover
    rw [if_pos hlt]
  · rw [if_neg hpa] at hover ⊢
    have hlt0 := machine_map_size_lt hsize hp1 hpageW
      (show (0 : Nat) ≤ 2 ^ 63 by decide) hover
    rw [Nat.add_zero] at hlt0
    rw [Nat.mod_mod_of_dvd _ dvd_rfl] at hlt0
    rw [if_pos hlt0]

/-- Witness for C6: requesting `2^64 - 1` bytes with alignment 8 on an empty
allocator with 4096-byte pages overflows the map-size computation and returns null
with the state unchanged. -/
theorem large_allocate_overflow_null_witness :
    largeAllocate ⟨4096, [], 0⟩ 18446744073709551615 8 = (none, ⟨4096, [], 0⟩) :=
  large_allocate_overflow_null ⟨4096, [], 0⟩ 18446744073709551615 8
    (by decide) ⟨3, rfl⟩ (by decide) ⟨12, rfl⟩ (by decide) (by decide)

/-- `GetActuallyAllocatedSize` of the pointer whose header sits at the head of the
live list. -/
lemma large_gas_cons (st : LargeState) (hdr : Header) (nm p : Nat)
    (haddr : hdr.addr = p - st.page_size)
    (hno : hdr.size + 2 * st.page_size ≤ W) (hpage : 0 < st.page_size) :
    largeGetActuallyAllocatedSize
      { st with list := hdr :: st.list, next_map := nm } p =
      roundUpNat hdr.size st.page_size := by
  rw [largeGetActuallyAllocatedSize, largeGetHeader]
  dsimp only
  rw [List.find?_cons_of_pos _ (by simp [haddr])]
  dsimp only
  rw [largeRoundUpMapSize]
  dsimp only
  have hW := W_pos
  have hR2 : roundUpNat hdr.size st.page_size ≤ hdr.size + st.page_size - 1 :=
    roundUpNat_le_self
  rw [roundUpTo_eq_roundUpNat (by omega), Nat.mod_eq_of_lt (by omega)]
  omega

/-- C7: a pointer returned by a successful large allocation with user size `size`
has `GetActuallyAllocatedSize` equal to `RoundUp(size, page_size)`, independent of
any alignment slack included in the mapping. -/
theorem large_gas_eq_rounded_size (st : LargeState) (size alignment : Nat)
    (hpage : 0 < st.page_size) (hno : size + 2 * st.page_size ≤ W)
    (p : Nat) (st' : LargeState)
    (hsucc : largeAllocate st size alignment = (some p, st')) :
    largeGetActuallyAllocatedSize st' p = roundUpNat size st.page_size := by
  simp only [largeAllocate] at hsucc
  split at hsucc <;> split at hsucc
  · simp at hsucc
  · obtain ⟨hp, hst⟩ := hsucc
    exact large_gas_cons st _ _ _ rfl hno hpage
  · simp at hsucc
  · obtain ⟨hp, hst⟩ := hsucc
    exact large_gas_cons st _ _ _ rfl hno hpage

lemma mod_eq_zero_of_dvd {a b : Nat} (h : a ∣ b) : b % a = 0 := by
  obtain ⟨c, rfl⟩ := h
  exact Nat.mul_mod_right a c

lemma pow2_dvd {a b : Nat} (ha : IsPowerOfTwo a) (hb : IsPowerOfTwo b) (h : a ≤ b) :
    a ∣ b := by
  obtain ⟨i, rfl⟩ := ha
  obtain ⟨j, rfl⟩ := hb
  have hij : i ≤ j := by
    by_contra hc
    push_neg at hc
    have := Nat.pow_lt_pow_right (show 1 < 2 by decide) hc
    omega
  exact pow_dvd_pow 2 hij

lemma align_up_mod {x A : Nat} (hA : 0 < A) (h : ¬ x % A = 0) :
    (x + (A - x % A)) % A = 0 := by
  have hdm := Nat.div_add_mod x A
  have hr : x % A < A := Nat.mod_lt _ hA
  have hx : x + (A - x % A) = A * (x / A + 1) := by
    rw [Nat.mul_succ]
    omega
  rw [hx, Nat.mul_mod_right]

lemma align_up_mod0 {x A : Nat} (hA : 0 < A) :
    (if x % A = 0 then x else x + (A - x % A)) % A = 0 := by
  split
  · assumption
  · exact align_up_mod hA (by assumption)

lemma align_up_ge (x A : Nat) : x ≤ (if x % A = 0 then x else x + (A - x % A)) := by
  split <;> omega

lemma align_up_lt (x : Nat) {A : Nat} (hA : 0 < A) :
    (if x % A = 0 then x else x + (A - x % A)) < x + A := by
  have hr : x % A < A := Nat.mod_lt _ hA
  split
  · omega
  · have h0 : ¬ x % A = 0 := by assumption
    omega

/-- C8: for a power-of-two alignment and any size whose map-size computation does
not overflow, the large allocation succeeds and the source's internal checks hold:
the returned user pointer is a multiple of `alignment` and of `page_size`,
`res + size ≤ map_beg + map_size`, and the header written at `res - page_size` lies
within the mapping at or after `map_beg` (the modelled OS mapping primitive returns
a page-aligned region of the requested length). -/
theorem large_allocate_checks (st : LargeState) (size alignment : Nat)
    (hpage : IsPowerOfTwo st.page_size) (halign : IsPowerOfTwo alignment)
    (hno : roundUpNat size st.page_size + st.page_size +
      (if st.page_size < alignment then alignment else 0) < W) :
    ∃ p st', largeAllocate st size alignment = (some p, st') ∧
      p % alignment = 0 ∧ p % st.page_size = 0 ∧
      ∃ hd, st'.list = hd :: st.list ∧ hd.addr = p - st.page_size ∧
        hd.map_beg ≤ p - st.page_size ∧ p + size ≤ hd.map_beg + hd.map_size := by
  have hp1 : 0 < st.page_size := hpage.pos
  have hA1 : 0 < alignment := halign.pos
  have hW := W_pos
  have hR1 : size ≤ roundUpNat size st.page_size := roundUpNat_ge hp1
  have hR2 : roundUpNat size st.page_size ≤ size + st.page_size - 1 :=
    roundUpNat_le_self
  have hmb : st.page_size ∣ roundUpNat st.next_map st.page_size :=
    Nat.dvd_of_mod_eq_zero roundUpNat_mod
  simp only [largeAllocate, largeRoundUpMapSize]
  by_cases hpa : st.page_size < alignment
  · rw [if_pos hpa] at hno ⊢
    rw [roundUpTo_eq_roundUpNat (by omega)]
    rw [@Nat.mod_eq_of_lt (roundUpNat size st.page_size + st.page_size) W (by omega)]
    rw [@Nat.mod_eq_of_lt
      (roundUpNat size st.page_size + st.page_size + alignment) W (by omega)]
    rw [if_neg (show ¬ (roundUpNat size st.page_size + st.page_size + alignment
      < size) by omega)]
    refine ⟨_, _, rfl, align_up_mod0 hA1, ?_, _, rfl, rfl, ?_, ?_⟩
    · have h2 : alignment ∣
          (if (roundUpNat st.next_map st.page_size + st.page_size) % alignment = 0
           then roundUpNat st.next_map st.page_size + st.page_size
           else roundUpNat st.next_map st.page_size + st.page_size +
             (alignment - (roundUpNat st.next_map st.page_size + st.page_size)
               % alignment)) :=
        Nat.dvd_of_mod_eq_zero (align_up_mod0 hA1)
      exact mod_eq_zero_of_dvd
        ((pow2_dvd hpage halign (le_of_lt hpa)).trans h2)
    · dsimp only
      have hge := align_up_ge (roundUpNat st.next_map st.page_size
        + st.page_size) alignment
      omega
    · dsimp only
      have hge := align_up_ge (roundUpNat st.next_map st.page_size
        + st.page_size) alignment
      have hlt := align_up_lt (roundUpNat st.next_map st.page_size
        + st.page_size) hA1
      omega
  · rw [if_neg hpa] at hno ⊢
    rw [roundUpTo_eq_roundUpNat (by omega)]
    rw [@Nat.mod_eq_of_lt (roundUpNat size st.page_size + st.page_size) W (by omega)]
    rw [if_neg (show ¬ (roundUpNat size st.page_size + st.page_size < size) by omega)]
    have hdvd : alignment ∣ st.page_size := pow2_dvd halign hpage (not_lt.mp hpa)
    have hres0 : (roundUpNat st.next_map st.page_size + st.page_size) % alignment
        = 0 :=
      mod_eq_zero_of_dvd (dvd_add (hdvd.trans hmb) hdvd)
    rw [if_pos hres0]
    refine ⟨_, _, rfl, hres0, ?_, _, rfl, rfl, ?_, ?_⟩
    · exact mod_eq_zero_of_dvd (dvd_add hmb dvd_rfl)
    · dsimp only
      omega
    · dsimp only
      omega

/-- Witness for C8: allocating 100 bytes with alignment 8192 (twice the 4096-byte
page) on an empty allocator succeeds with all internal checks satisfied. -/
theorem large_allocate_checks_witness :
    ∃ p st', largeAllocate ⟨4096, [], 0⟩ 100 8192 = (some p, st') ∧
      p % 8192 = 0 ∧ p % (4096 : Nat) = 0 ∧
      ∃ hd, st'.list = hd :: ([] : List Header) ∧ hd.addr = p - 4096 ∧
        hd.map_beg ≤ p - 4096 ∧ p + 100 ≤ hd.map_beg + hd.map_size :=
  large_allocate_checks ⟨4096, [], 0⟩ 100 8192 ⟨12, rfl⟩ ⟨13, rfl⟩ (by decide)

/-- Witness for C7 at a concrete state: allocating 100 bytes with alignment 8 on an
empty allocator with 4096-byte pages yields user pointer 4096, whose actually
allocated size is `RoundUp(100, 4096) = 4096`. -/
theorem large_gas_eq_rounded_size_witness :
    largeGetActuallyAllocatedSize ⟨4096, [⟨0, 0, 8192, 100⟩], 8192⟩ 4096 =
      roundUpNat 100 4096 :=
  large_gas_eq_rounded_size ⟨4096, [], 0⟩ 100 8 (by decide) (by decide)
    4096 ⟨4096, [⟨0, 0, 8192, 100⟩], 8192⟩ (by decide)

/-! ## Combined allocator facade (`CombinedAllocator`)

The primary backend and the thread-local cache are template parameters of the
facade; their operations enter the model as a record of functions over an abstract
primary-plus-cache state `π` (spec §4.5 fixes only their interface).  Memory is a
byte map `Nat → Nat`.  A null pointer is `none`; a chunk handed out by the cache is
null iff it is address 0. -/

/-- The primary backend and cache operations used by the facade: `CanAllocate`,
`ClassID`, `PointerIsMine`, `GetSizeClass`, `GetActuallyAllocatedSize`,
`cache->Allocate(&primary_, class_id)` and `cache->Deallocate(&primary_, class, p)`,
as functions on an abstract state `π`. -/
structure PrimaryOps (π : Type) where
  canAllocate : Nat → Nat → Bool
  classID : Nat → Nat
  pointerIsMine : π → Nat → Bool
  getSizeClass : π → Nat → Nat
  getActuallyAllocatedSize : π → Nat → Nat
  cacheAllocate : π → Nat → Nat × π
  cacheDeallocate : π → Nat → Nat → π

/-- The facade's state: the primary-plus-cache state, the secondary
(`LargeMmapAllocator`) state, and the byte memory. -/
structure CombinedState (π : Type) where
  primary : π
  secondary : LargeState
  mem : Nat → Nat

/-- Modelled from the spec: `internal_memset(p, 0, n)` zeroes the `n` bytes at `p`. -/
def memsetZero (mem : Nat → Nat) (p n : Nat) : Nat → Nat :=
  fun a => if p ≤ a ∧ a < p + n then 0 else mem a

/-- Modelled from the spec: `internal_memcpy(dst, src, n)` copies the `n` bytes at
`src` to `dst` (source and destination do not alias). -/
def memcpyBytes (mem : Nat → Nat) (dst src n : Nat) : Nat → Nat :=
  fun a => if dst ≤ a ∧ a < dst + n then mem (src + (a - dst)) else mem a

/-- The backend dispatch inside `CombinedAllocator::Allocate`: on
`CanAllocate(size, alignment)` the chunk comes from the cache over the primary
(`cache->Allocate(&primary_, primary_.ClassID(size))`), otherwise from the
secondary. -/
def allocResult {π : Type} (ops : PrimaryOps π) (st : CombinedState π)
    (size2 alignment : Nat) : Option Nat × CombinedState π :=
  if ops.canAllocate size2 alignment then
    let pr := ops.cacheAllocate st.primary (ops.classID size2)
    ((if pr.1 = 0 then none else some pr.1), { st with primary := pr.2 })
  else
    let sec := largeAllocate st.secondary size2 alignment
    (sec.1, { st with secondary := sec.2 })

/-- `CombinedAllocator::Allocate(cache, size, alignment, cleared)`: remap size 0 to
1; null on `size + alignment` wrap; round the size up for alignments above 8;
dispatch on `CanAllocate` to the cache-plus-primary or the secondary; `memset` when
`cleared` and the result is non-null. -/
def combinedAllocate {π : Type} (ops : PrimaryOps π) (st : CombinedState π)
    (size alignment : Nat) (cleared : Bool) : Option Nat × CombinedState π :=
  let size1 := if size = 0 then 1 else size
  if (size1 + alignment) % W < size1 then (none, st)
  else
    let size2 := if 8 < alignment then roundUpTo size1 alignment else size1
    let r := allocResult ops st size2 alignment
    match r.1 with
    | none => (none, r.2)
    | some q =>
        if cleared then (some q, { r.2 with mem := memsetZero (r.2).mem q size2 })
        else (some q, r.2)

/-- `CombinedAllocator::Deallocate(cache, p)`: null is a no-op; primary pointers go
back through the cache, all others to the secondary. -/
def combinedDeallocate {π : Type} (ops : PrimaryOps π) (st : CombinedState π)
    (p : Nat) : CombinedState π :=
  if p = 0 then st
  else if ops.pointerIsMine st.primary p then
    { st with primary :=
        ops.cacheDeallocate st.primary (ops.getSizeClass st.primary p) p }
  else { st with secondary := largeDeallocate st.secondary p }

/-- `CombinedAllocator::GetActuallyAllocatedSize(p)`: dispatch by primary identity. -/
def combinedGetActuallyAllocatedSize {π : Type} (ops : PrimaryOps π)
    (st : CombinedState π) (p : Nat) : Nat :=
  if ops.pointerIsMine st.primary p then ops.getActuallyAllocatedSize st.primary p
  else largeGetActuallyAllocatedSize st.secondary p

/-- `CombinedAllocator::Reallocate(cache, p, new_size, alignment)`. -/
def combinedReallocate {π : Type} (ops : PrimaryOps π) (st : CombinedState π)
    (p new_size alignment : Nat) : Option Nat × CombinedState π :=
  if p = 0 then combinedAllocate ops st new_size alignment false
  else if new_size = 0 then (none, combinedDeallocate ops st p)
  else
    let old_size := combinedGetActuallyAllocatedSize ops st p
    let memcpy_size := min new_size old_size
    let r := combinedAllocate ops st new_size alignment false
    match r.1 with
    | some q =>
        (some q, combinedDeallocate ops
          { r.2 with mem := memcpyBytes (r.2).mem q p memcpy_size } p)
    | none => (none, combinedDeallocate ops r.2 p)

lemma allocResult_mem {π : Type} (ops : PrimaryOps π) (st : CombinedState π)
    (size alignment : Nat) :
    ((allocResult ops st size alignment).2).mem = st.mem := by
  rw [allocResult]
  split <;> rfl

lemma combinedAllocate_mem_eq {π : Type} (ops : PrimaryOps π) (st : CombinedState π)
    (size alignment : Nat) :
    ((combinedAllocate ops st size alignment false).2).mem = st.mem := by
  rw [combinedAllocate]
  repeat' split
  all_goals try rfl
  all_goals dsimp only
  all_goals repeat' split
  all_goals first
    | rfl
    | exact allocResult_mem ops st _ _
    | exact absurd ‹false = true› (by decide)

lemma combinedDeallocate_mem_eq {π : Type} (ops : PrimaryOps π)
    (st : CombinedState π) (p : Nat) :
    (combinedDeallocate ops st p).mem = st.mem := by
  rw [combinedDeallocate]
  repeat' split
  all_goals rfl

/-- A trivial primary backend for concrete runs: it accepts nothing and owns
nothing, so every request reaches the secondary. -/
def trivialOps : PrimaryOps Unit :=
  ⟨fun _ _ => false, fun _ => 0, fun _ _ => false, fun _ _ => 0, fun _ _ => 0,
   fun _ _ => (0, ()), fun _ _ _ => ()⟩

/-- A concrete facade state: one live large mapping of user size 100 at user
address 4096, page size 4096, and a nontrivial byte memory. -/
def stW : CombinedState Unit :=
  ⟨(), ⟨4096, [⟨0, 0, 8192, 100⟩], 8192⟩, fun a => a % 256⟩

/-- C5: the facade's `Allocate` replaces a requested size of 0 with 1 before any
other processing (the two calls are indistinguishable), and whenever
`size + alignment` wraps the machine word it returns null with the whole state —
primary, secondary and memory — unchanged, so no backend is invoked. -/
theorem combined_allocate_zero_and_overflow {π : Type} (ops : PrimaryOps π)
    (st : CombinedState π) (alignment : Nat) (cleared : Bool) :
    combinedAllocate ops st 0 alignment cleared =
      combinedAllocate ops st 1 alignment cleared ∧
    (∀ size, (size + alignment) % W < size →
      combinedAllocate ops st size alignment cleared = (none, st)) := by
  constructor
  · rfl
  · intro size hwrap
    have hs0 : ¬ size = 0 := by
      intro h
      subst h
      omega
    simp only [combinedAllocate]
    rw [if_neg hs0, if_pos hwrap]

/-- Witness for C5: with the trivial primary and a concrete state, `Allocate 0` and
`Allocate 1` coincide, and a wrapping `size + alignment` yields null with the state
untouched. -/
theorem combined_allocate_zero_and_overflow_witness :
    combinedAllocate trivialOps stW 0 8 false =
      combinedAllocate trivialOps stW 1 8 false ∧
    combinedAllocate trivialOps stW 2 18446744073709551615 false = (none, stW) :=
  ⟨(combined_allocate_zero_and_overflow trivialOps stW 8 false).1,
   (combined_allocate_zero_and_overflow trivialOps stW 18446744073709551615
      false).2 2 (by decide)⟩

/-- C9: `Reallocate(cache, p, new_size, alignment)` behaves as specified: for null
`p` it is exactly `Allocate(cache, new_size, alignment)`; for `new_size = 0` it
deallocates `p` and returns null; otherwise, when the inner allocation yields `q`,
it returns `q`, deallocates the old region, and copies exactly
`min(GetActuallyAllocatedSize(p), new_size)` bytes byte-for-byte from the old
region to the new one (bytes outside the copied range are untouched). -/
theorem combined_reallocate_spec {π : Type} (ops : PrimaryOps π)
    (st : CombinedState π) (p new_size alignment : Nat) :
    (combinedReallocate ops st 0 new_size alignment =
      combinedAllocate ops st new_size alignment false) ∧
    (p ≠ 0 → combinedReallocate ops st p 0 alignment =
      (none, combinedDeallocate ops st p)) ∧
    (∀ q, p ≠ 0 → new_size ≠ 0 →
      (combinedAllocate ops st new_size alignment false).1 = some q →
      combinedReallocate ops st p new_size alignment =
        (some q, combinedDeallocate ops
          { (combinedAllocate ops st new_size alignment false).2 with
            mem := memcpyBytes st.mem q p
              (min new_size (combinedGetActuallyAllocatedSize ops st p)) } p) ∧
      (∀ i, i < min new_size (combinedGetActuallyAllocatedSize ops st p) →
        (combinedReallocate ops st p new_size alignment).2.mem (q + i) =
          st.mem (p + i)) ∧
      (∀ a, a < q ∨ q + min new_size (combinedGetActuallyAllocatedSize ops st p) ≤ a →
        (combinedReallocate ops st p new_size alignment).2.mem a = st.mem a)) := by
  refine ⟨rfl, ?_, ?_⟩
  · intro hp
    simp only [combinedReallocate]
    rw [if_neg hp, if_pos trivial]
  · intro q hp hn halloc
    have hmain : combinedReallocate ops st p new_size alignment =
        (some q, combinedDeallocate ops
          { (combinedAllocate ops st new_size alignment false).2 with
            mem := memcpyBytes st.mem q p
              (min new_size (combinedGetActuallyAllocatedSize ops st p)) } p) := by
      simp only [combinedReallocate]
      rw [if_neg hp, if_neg hn, halloc]
      rw [combinedAllocate_mem_eq]
    refine ⟨hmain, ?_, ?_⟩
    · intro i hi
      rw [hmain]
      dsimp only
      rw [combinedDeallocate_mem_eq]
      dsimp only
      simp only [memcpyBytes]
      rw [if_pos ⟨Nat.le_add_right q i, by omega⟩]
      have hqi : q + i - q = i := by omega
      rw [hqi]
    · intro a ha
      rw [hmain]
      dsimp only
      rw [combinedDeallocate_mem_eq]
      dsimp only
      simp only [memcpyBytes]
      rw [if_neg (by omega)]

/-- Witness for C9 at a concrete state: reallocating the live 100-byte mapping at
4096 to 10 bytes returns the fresh pointer 12288, and byte 3 of the new region
equals byte 3 of the old one. -/
theorem combined_reallocate_spec_witness :
    (combinedReallocate trivialOps stW 4096 10 8).1 = some 12288 ∧
    (combinedReallocate trivialOps stW 4096 10 8).2.mem (12288 + 3) =
      stW.mem (4096 + 3) := by
  have h := (combined_reallocate_spec trivialOps stW 4096 10 8).2.2 12288
    (by decide) (by decide) (by decide)
  refine ⟨?_, h.2.1 3 (by decide)⟩
  rw [h.1]

/-- C10: when `Reallocate` is called with non-null `p` and positive `new_size` and
the inner `Allocate` fails (returns null), the old region is still deallocated,
null is returned, and no bytes are copied (the byte memory is untouched): the
operation is not atomic on failure, and `p` is invalid afterwards. -/
theorem combined_reallocate_alloc_fail {π : Type} (ops : PrimaryOps π)
    (st : CombinedState π) (p new_size alignment : Nat)
    (hp : p ≠ 0) (hn : new_size ≠ 0)
    (hfail : (combinedAllocate ops st new_size alignment false).1 = none) :
    combinedReallocate ops st p new_size alignment =
      (none, combinedDeallocate ops
        (combinedAllocate ops st new_size alignment false).2 p) ∧
    (combinedReallocate ops st p new_size alignment).2.mem = st.mem := by
  have hmain : combinedReallocate ops st p new_size alignment =
      (none, combinedDeallocate ops
        (combinedAllocate ops st new_size alignment false).2 p) := by
    simp only [combinedReallocate]
    rw [if_neg hp, if_neg hn, hfail]
  refine ⟨hmain, ?_⟩
  rw [hmain]
  dsimp only
  rw [combinedDeallocate_mem_eq, combinedAllocate_mem_eq]

/-- Witness for C10: reallocating the live mapping at 4096 to `2^64 - 1` bytes
makes the inner allocation fail; the old region is deallocated, null is returned
and memory is untouched. -/
theorem combined_reallocate_alloc_fail_witness :
    combinedReallocate trivialOps stW 4096 18446744073709551615 8 =
      (none, combinedDeallocate trivialOps
        (combinedAllocate trivialOps stW 18446744073709551615 8 false).2 4096) ∧
    (combinedReallocate trivialOps stW 4096 18446744073709551615 8).2.mem =
      stW.mem :=
  combined_reallocate_alloc_fail trivialOps stW 4096 18446744073709551615 8
    (by decide) (by decide) (by decide)

end SanitizerAllocator
